import Mathlib

/-!
Verification of the session-persistence layer of the eternalgy-whatsapp-api
repository: the Postgres-backed session stores (several near-duplicate
variants), the file-readiness watchers they use, the retrying save
orchestration, the lock manager and the send endpoint of the HTTP facade.

Each JavaScript function is shallowly embedded as an executable Lean
definition: filesystem and database observations become explicit traces or
outcome parameters, thrown exceptions become Except values, and the SQL
table behind the store becomes an association list of rows.
-/

/-- Opaque byte sequences (the contents of a session archive). -/
abbrev Bytes := List Nat

/-- The errors thrown by the embedded JavaScript code. -/
inductive JsError where
  /-- `Session archive not found within timeout` (save throws after
  `waitForExistingPath` returns null). -/
  | notFoundTimeout
  /-- `File did not stabilise within ...` thrown by `waitForStableFile`. -/
  | stabiliseTimeout
  /-- A filesystem error carrying its `code` (for example `EACCES`). -/
  | ioError (code : String)
  /-- A database error surfaced by `pool.query`. -/
  | dbError (msg : String)
  /-- A `JSON.parse` failure. -/
  | parseError
deriving DecidableEq, Repr

namespace SessionTable

/--
The `wweb_sessions` SQL table: rows of `(session_key, session_data)`.
The `PRIMARY KEY` constraint corresponds to the keys of the list being
pairwise distinct (`Nodup`), an invariant the operations preserve.
-/
abbrev Table := List (String × Bytes)

/--
The statement
`INSERT INTO wweb_sessions (session_key, session_data) VALUES ($1, $2)
 ON CONFLICT (session_key) DO UPDATE SET session_data = $2`
from `PostgresStore.save`: if a row with the key exists its data is
replaced, otherwise a new row is inserted.
-/
def upsertRow : Table → String → Bytes → Table
  | [], k, b => [(k, b)]
  | (k2, b2) :: rest, k, b =>
      if k2 = k then (k, b) :: rest else (k2, b2) :: upsertRow rest k b

/--
The query `SELECT session_data FROM wweb_sessions WHERE session_key = $1`
from `PostgresStore.extract`, returning the data of the row with the key
(if any). -/
def selectRow (t : Table) (k : String) : Option Bytes :=
  (t.find? (fun r => r.1 = k)).map (fun r => r.2)

/--
The statement `DELETE FROM wweb_sessions WHERE session_key = $1` from
`PostgresStore.delete`: removes every row with the key. -/
def deleteRows (t : Table) (k : String) : Table :=
  t.filter (fun r => r.1 ≠ k)

/--
`PostgresStore.extract` (retry variant, the store holding `Bytes`):
selects the row, returns `none` written when the row is absent or its
data empty in the driver sense; the payload component records the bytes
written to the destination path (the JavaScript return value itself is
always `null`). -/
def extract (t : Table) (k : String) : Except JsError (Option Bytes) :=
  .ok (selectRow t k)

end SessionTable

namespace Watcher

/-- One observation of `fs.promises.stat` on the archive path. -/
inductive StatObs where
  /-- The stat succeeded and reported this size. -/
  | size (n : Nat)
  /-- The stat threw with `code === ENOENT` (caught and ignored). -/
  | enoent
  /-- The stat threw with another code (re-thrown by the watcher). -/
  | ioErr (code : String)
deriving DecidableEq, Repr

/--
`waitForStableFile(filePath, { timeout, interval })` from the retrying
`PostgresStore`: one recursive step per poll tick, the trace of stat
observations standing for what each tick sees and its length for the
number of ticks the timeout budget allows.  `lastSize` starts at `-1`;
a tick seeing a positive size equal to `lastSize` resolves `true`, a
positive size updates `lastSize`, a zero size or an `ENOENT` leaves
`lastSize` unchanged, any other stat error propagates, and an exhausted
budget throws the stabilise-timeout error. -/
def waitForStableFile : List StatObs → Int → Except JsError Bool
  | [], _ => .error .stabiliseTimeout
  | .size n :: rest, lastSize =>
      if 0 < n then
        if (n : Int) = lastSize then .ok true
        else waitForStableFile rest (n : Int)
      else waitForStableFile rest lastSize
  | .enoent :: rest, lastSize => waitForStableFile rest lastSize
  | .ioErr c :: _, _ => .error (.ioError c)

/-- The positive sizes seen along a trace, in order (zero sizes and
absent-file observations dropped). -/
def posSizes (l : List StatObs) : List Nat :=
  l.filterMap fun o =>
    match o with
    | .size n => if 0 < n then some n else none
    | _ => none

/-- Whether some element of the list is immediately repeated. -/
def hasAdjacentRepeat : List Nat → Bool
  | a :: b :: rest => a = b || hasAdjacentRepeat (b :: rest)
  | _ => false

/-- `stableFrom last l`: whether the watcher loop, currently holding
`last` as its tracked size, would declare stability on the positive-size
trace `l`. -/
def stableFrom (last : Int) : List Nat → Bool
  | [] => false
  | n :: rest => if (n : Int) = last then true else stableFrom (n : Int) rest

/-- The trace contains no stat error other than `ENOENT`. -/
def errFree : List StatObs → Bool
  | [] => true
  | .ioErr _ :: _ => false
  | _ :: rest => errFree rest

/--
Stated from the specification words, for comparison with the code:
"two consecutively observed sizes are equal and strictly greater than
zero" — some observation reports a positive size and the immediately
following observation reports the same size. -/
def consecEqualPosSpec : List StatObs → Bool
  | .size a :: .size b :: rest =>
      (a = b && 0 < a) || consecEqualPosSpec (.size b :: rest)
  | _ :: rest => consecEqualPosSpec rest
  | [] => false

/-- One observation of `fs.promises.access(candidate, F_OK)`. -/
inductive AccessObs where
  /-- The access succeeded: the candidate path exists. -/
  | found
  /-- The access threw with `code === ENOENT` (treated as not yet there). -/
  | enoent
  /-- The access threw with another code (re-thrown). -/
  | ioErr (code : String)
deriving DecidableEq, Repr

/-- What one poll tick of `waitForExistingPath` observes: each candidate
path paired with the outcome of accessing it, in candidate order. -/
abbrev Tick := List (String × AccessObs)

/-- The inner `for (const candidate of possiblePaths)` loop of
`waitForExistingPath`: returns the first candidate that exists, skips a
candidate whose access fails with `ENOENT`, and propagates any other
access error. -/
def checkCandidates : Tick → Except JsError (Option String)
  | [] => .ok none
  | (p, .found) :: _ => .ok (some p)
  | (_, .enoent) :: rest => checkCandidates rest
  | (_, .ioErr c) :: _ => .error (.ioError c)

/--
`waitForExistingPath(possiblePaths, { timeout, interval })`: one
recursive step per poll tick; an exhausted tick budget corresponds to
the `while` guard expiring, in which case the function logs and returns
`null` (here `.ok none`) rather than throwing. -/
def waitForExistingPath : List Tick → Except JsError (Option String)
  | [] => .ok none
  | tick :: rest =>
      match checkCandidates tick with
      | .ok none => waitForExistingPath rest
      | r => r

/-- Every access observation in the tick is an `ENOENT`. -/
def tickAllEnoent (tick : Tick) : Prop :=
  ∀ e ∈ tick, e.2 = AccessObs.enoent

end Watcher

namespace PGStoreRetry

open SessionTable Watcher

/--
Everything one attempt of the retrying `PostgresStore.save` observes
from the outside world: the per-tick access observations driving
`waitForExistingPath`, the stat observations driving
`waitForStableFile`, the outcome of `fs.promises.readFile`, and the
outcome of the upsert `pool.query`. -/
structure AttemptEnv where
  pathTicks : List Tick
  statObs : List StatObs
  readResult : Except JsError Bytes
  dbResult : Except JsError Unit

/--
The body of one iteration of the `while (attempt < maxAttempts)` loop of
the retrying `PostgresStore.save`: wait for a candidate archive path,
throw the not-found error if `waitForExistingPath` resolves `null`, wait
for the file to stabilise, read it, and run the upsert statement.  The
returned table is the table after the attempt: a single-statement upsert
that fails leaves the table unchanged. -/
def runAttempt (env : AttemptEnv) (k : String) (t : Table) :
    Except JsError Unit × Table :=
  match waitForExistingPath env.pathTicks with
  | .error e => (.error e, t)
  | .ok none => (.error .notFoundTimeout, t)
  | .ok (some _) =>
      match waitForStableFile env.statObs (-1) with
      | .error e => (.error e, t)
      | .ok _ =>
          match env.readResult with
          | .error e => (.error e, t)
          | .ok bytes =>
              match env.dbResult with
              | .error e => (.error e, t)
              | .ok _ => (.ok (), upsertRow t k bytes)

/-- `const maxAttempts = 3` of the retrying `PostgresStore.save`. -/
def maxAttempts : Nat := 3

/--
The `while (attempt < maxAttempts)` loop of the retrying
`PostgresStore.save`, entered with `attempt` attempts already made.
`envs n` is what the n-th attempt (1-based) observes.  The third result
component lists the back-off sleeps performed, in milliseconds
(`500 * Math.pow(2, attempt - 1)` after a failed attempt that is not the
last).  A success returns immediately; after the last failed attempt the
last error is re-thrown. -/
def saveGo (envs : Nat → AttemptEnv) (k : String) (attempt : Nat) (t : Table) :
    Except JsError Unit × Table × List Nat :=
  match runAttempt (envs (attempt + 1)) k t with
  | (.ok _, t2) => (.ok (), t2, [])
  | (.error e, t2) =>
      if h : attempt + 1 < maxAttempts then
        let rest := saveGo envs k (attempt + 1) t2
        (rest.1, rest.2.1, 500 * 2 ^ attempt :: rest.2.2)
      else (.error e, t2, [])
termination_by maxAttempts - attempt
decreasing_by simp [maxAttempts] at h ⊢; omega

/-- The retrying `PostgresStore.save`, starting its loop at `attempt = 0`. -/
def save (envs : Nat → AttemptEnv) (k : String) (t : Table) :
    Except JsError Unit × Table × List Nat :=
  saveGo envs k 0 t

end PGStoreRetry

namespace PGStoreCleanup

open SessionTable

/--
`PostgresStore.save` of the cleanup variant (`src/PostgresStore.js`):
reads `<session>.zip` synchronously and upserts it, with a `finally`
block that unlinks the zip file whenever it still exists.  `file` is the
content of `<session>.zip` (`none` when absent), `db` the outcome of the
upsert statement.  Results: the surfaced outcome, the table after the
call, and the content of `<session>.zip` after the call.  A missing file
makes `readFileSync` throw `ENOENT` before the query; the `finally`
block then finds no file to unlink.  When the read succeeded the
`finally` block unlinks the file whether or not the query succeeded. -/
def save (file : Option Bytes) (db : Except JsError Unit) (k : String)
    (t : Table) : Except JsError Unit × Table × Option Bytes :=
  match file with
  | none => (.error (.ioError "ENOENT"), t, none)
  | some bytes =>
      match db with
      | .ok _ => (.ok (), upsertRow t k bytes, none)
      | .error e => (.error e, t, none)

end PGStoreCleanup

namespace PGStoreText

/-- A sessions table whose `session_data` column is `TEXT` (the
JSON-string variants of the store). -/
abbrev TextTable := List (String × String)

/-- `SELECT` of the row with the key from a `TEXT` table. -/
def selectText (t : TextTable) (k : String) : Option String :=
  (t.find? (fun r => r.1 = k)).map (fun r => r.2)

/-- `DELETE FROM ... WHERE` the key matches, on a `TEXT` table. -/
def deleteText (t : TextTable) (k : String) : TextTable :=
  t.filter (fun r => r.1 ≠ k)

/--
`PostgresStore.extract` of the JSON-text variant with a parse guard: a
missing row returns `null`; a present row is fed to `JSON.parse`, a
parse failure is caught, logged, the corrupted row deleted via
`this.delete`, and `null` returned.  `parse` abstracts `JSON.parse`
(`none` standing for a thrown parse error); the second component is the
table after the call. -/
def extract (parse : String → Option V) (t : TextTable) (k : String) :
    Option V × TextTable :=
  match selectText t k with
  | none => (none, t)
  | some s =>
      match parse s with
      | some v => (some v, t)
      | none => (none, deleteText t k)

end PGStoreText

namespace PGStorePrefix

open PGStoreText

/--
`PostgresStore.extract` of the prefixed-table variant:
`res.rowCount` zero returns `null`, otherwise the row data is fed to
`JSON.parse` with no surrounding try/catch, so a parse failure
propagates to the caller as a thrown error. -/
def extract (parse : String → Option V) (t : TextTable) (k : String) :
    Except JsError (Option V) :=
  match selectText t k with
  | none => .ok none
  | some s =>
      match parse s with
      | some v => .ok (some v)
      | none => .error .parseError

end PGStorePrefix

/-- A stand-in for the success/failure behaviour of `JSON.parse` on
stored payloads: the string `corrupt` is not valid JSON, so `JSON.parse`
throws on it; the string `ok` stands for a well-formed payload. -/
def jsonParseModel : String → Option Unit :=
  fun s => if s = "ok" then some () else none

namespace LockManager

/-- The outcome of the `fs.writeFileSync(LOCK_FILE, ..., { flag: wx })`
call at the moment it runs. -/
inductive WriteRes where
  /-- The exclusive create succeeded. -/
  | ok
  /-- The file already existed: the `wx` flag makes the write throw
  `EEXIST` (another instance created it in between). -/
  | eexist
  /-- The write threw another error with this code. -/
  | otherErr (code : String)
deriving DecidableEq, Repr

/-- What `acquireLock` observes: the lock file's mtime if it exists,
the current clock, and the outcome of the exclusive write. -/
structure LockEnv where
  lockMtime : Option Int
  now : Int
  writeRes : WriteRes

/-- The visible result of `acquireLock`: the returned boolean or a
re-thrown error code, whether a stale lock file was unlinked, and
whether a new lock file was written. -/
structure LockResult where
  result : Except String Bool
  removedStale : Bool
  wroteNew : Bool
deriving Repr

/-- `const STALE_THRESHOLD = 60 * 1000`. -/
def staleThreshold : Int := 60 * 1000

/-- The `try { writeFileSync(..., { flag: wx }) }` block of
`acquireLock`: success returns `true`, `EEXIST` is caught and returns
`false`, any other error is re-thrown.  `rm` records whether a stale
lock was removed beforehand. -/
def attemptWrite (w : WriteRes) (rm : Bool) : LockResult :=
  match w with
  | .ok => ⟨.ok true, rm, true⟩
  | .eexist => ⟨.ok false, rm, false⟩
  | .otherErr c => ⟨.error c, rm, false⟩

/--
`acquireLock` from `src/lock-manager.js`: an existing lock file modified
no more than `STALE_THRESHOLD` milliseconds ago returns `false` without
touching it; an older one is unlinked and the exclusive write attempted;
an absent lock file goes straight to the exclusive write. -/
def acquireLock (env : LockEnv) : LockResult :=
  match env.lockMtime with
  | some m =>
      if env.now - m > staleThreshold then attemptWrite env.writeRes true
      else ⟨.ok false, false, false⟩
  | none => attemptWrite env.writeRes false

end LockManager

namespace Server

/-- The observable outcome of one `POST /api/send` request: the HTTP
status, the error message of the JSON body (if any), and the chat id
`client.sendMessage` was invoked with (`none` when no send was
attempted). -/
structure SendOutcome where
  status : Nat
  errMsg : Option String
  sentTo : Option String
deriving DecidableEq, Repr

/-- `to.replace(/\D/g, ...)` with the empty replacement: keep only the
decimal digits of the string. -/
def digitsOnly (s : String) : String :=
  String.mk (s.data.filter Char.isDigit)

/--
The handler of `POST /api/send` in `src/server.js`.  `isReady` is the
module-level readiness flag, `to` the request's `to` field (`none` when
absent), and `send` the behaviour of `client.sendMessage` (its error
message is surfaced by the catch-all as a 500).  A falsy `to` (absent or
the empty string) throws the required-field error; the digit-stripped
number must have between 10 and 15 digits; on success the message goes
to `<digits>@c.us`. -/
def apiSend (isReady : Bool) (toField : Option String)
    (send : String → Except String Unit) : SendOutcome :=
  if !isReady then ⟨400, some "WhatsApp not ready", none⟩
  else
    match toField with
    | none => ⟨500, some "Phone number to is required", none⟩
    | some s =>
        if s = "" then ⟨500, some "Phone number to is required", none⟩
        else
          let formatted := digitsOnly s
          if formatted.length < 10 || formatted.length > 15 then
            ⟨500, some "Invalid phone number", none⟩
          else
            let chatId := formatted ++ "@c.us"
            match send chatId with
            | .ok _ => ⟨200, none, some chatId⟩
            | .error msg => ⟨500, some msg, some chatId⟩

end Server

/-! ## Helper lemmas about the sessions table -/

namespace SessionTable

theorem selectRow_upsertRow_self (t : Table) (k : String) (b : Bytes) :
    selectRow (upsertRow t k b) k = some b := by
  induction t with
  | nil => simp [upsertRow, selectRow, List.find?]
  | cons r rest ih =>
    obtain ⟨k2, b2⟩ := r
    by_cases hk : k2 = k
    · simp [upsertRow, hk, selectRow, List.find?]
    · simpa [upsertRow, hk, selectRow, List.find?] using ih

theorem mem_keys_upsertRow (t : Table) (k b x) :
    x ∈ (upsertRow t k b).map Prod.fst ↔ x ∈ t.map Prod.fst ∨ x = k := by
  induction t with
  | nil => simp [upsertRow]
  | cons r rest ih =>
    obtain ⟨k2, b2⟩ := r
    by_cases hk : k2 = k
    · subst hk
      simp [upsertRow]
      tauto
    · simp [upsertRow, hk, ih]
      tauto

theorem nodup_keys_upsertRow (t : Table) (k : String) (b : Bytes)
    (h : (t.map Prod.fst).Nodup) : ((upsertRow t k b).map Prod.fst).Nodup := by
  induction t with
  | nil => simp [upsertRow]
  | cons r rest ih =>
    obtain ⟨k2, b2⟩ := r
    simp only [List.map_cons, List.nodup_cons] at h
    by_cases hk : k2 = k
    · subst hk
      simpa [upsertRow, List.nodup_cons] using h
    · simp only [upsertRow, hk, if_false, List.map_cons, List.nodup_cons]
      refine ⟨fun hmem => ?_, ih h.2⟩
      rcases (mem_keys_upsertRow rest k b k2).mp hmem with h2 | h2
      · exact h.1 h2
      · exact hk h2

theorem countP_key_eq_zero (t : Table) (k : String)
    (h : k ∉ t.map Prod.fst) :
    t.countP (fun r => decide (r.1 = k)) = 0 := by
  refine List.countP_eq_zero.mpr fun r hr => ?_
  simp only [decide_eq_true_eq]
  intro hk
  exact h (List.mem_map.mpr ⟨r, hr, hk⟩)

theorem countP_key_upsertRow (t : Table) (k : String) (b : Bytes)
    (h : (t.map Prod.fst).Nodup) :
    (upsertRow t k b).countP (fun r => decide (r.1 = k)) ≤ 1 := by
  induction t with
  | nil => simp [upsertRow]
  | cons r rest ih =>
    obtain ⟨k2, b2⟩ := r
    simp only [List.map_cons, List.nodup_cons] at h
    by_cases hk : k2 = k
    · subst hk
      simp [upsertRow, List.countP_cons, countP_key_eq_zero rest k2 h.1]
    · simp only [upsertRow, hk, if_false, List.countP_cons, decide_eq_true_eq]
      simpa [hk] using ih h.2

theorem selectRow_deleteRows (t : Table) (k : String) :
    selectRow (deleteRows t k) k = none := by
  have h : (deleteRows t k).find? (fun r => r.1 = k) = none := by
    rw [List.find?_eq_none]
    intro x hx
    have hmem := (List.mem_filter.mp hx).2
    simp only [ne_eq, decide_not, Bool.not_eq_eq_eq_not, Bool.not_true,
      decide_eq_false_iff_not] at hmem
    simpa using hmem
  simp [selectRow, h]

theorem deleteRows_deleteRows (t : Table) (k : String) :
    deleteRows (deleteRows t k) k = deleteRows t k := by
  simp [deleteRows, List.filter_filter]

theorem deleteRows_of_absent (t : Table) (k : String)
    (h : selectRow t k = none) : deleteRows t k = t := by
  induction t with
  | nil => simp [deleteRows]
  | cons r rest ih =>
    by_cases hk : r.1 = k
    · exfalso
      simp [selectRow, List.find?, hk] at h
    · simp only [selectRow, List.find?, hk, decide_eq_true_eq] at h ih ⊢
      simp only [deleteRows, List.filter_cons, hk, decide_not]
      simpa [deleteRows, List.filter] using ih h

end SessionTable

/-! ## Helper lemmas about the file watchers -/

namespace Watcher

theorem errFree_cons_size (n : Nat) (rest : List StatObs) :
    errFree (.size n :: rest) = errFree rest := rfl

theorem errFree_cons_enoent (rest : List StatObs) :
    errFree (.enoent :: rest) = errFree rest := rfl

theorem waitForStableFile_char (obs : List StatObs) (last : Int)
    (h : errFree obs = true) :
    waitForStableFile obs last =
      (if stableFrom last (posSizes obs) then Except.ok true
       else Except.error JsError.stabiliseTimeout) := by
  induction obs generalizing last with
  | nil => simp [waitForStableFile, posSizes, stableFrom]
  | cons o rest ih =>
    cases o with
    | size n =>
      rw [errFree_cons_size] at h
      by_cases hn : 0 < n
      · by_cases he : (n : Int) = last
        · simp [waitForStableFile, hn, he, posSizes, stableFrom]
        · simp [waitForStableFile, hn, he, posSizes, stableFrom, ih last h,
            ih (n : Int) h]
      · simp [waitForStableFile, hn, posSizes, ih last h]
    | enoent =>
      rw [errFree_cons_enoent] at h
      simp [waitForStableFile, posSizes, ih last h]
    | ioErr c => simp [errFree] at h

theorem stableFrom_cast (n : Nat) (l : List Nat) :
    stableFrom (n : Int) l = hasAdjacentRepeat (n :: l) := by
  induction l generalizing n with
  | nil => simp [stableFrom, hasAdjacentRepeat]
  | cons m rest ih =>
    by_cases h : m = n
    · subst h
      simp [stableFrom, hasAdjacentRepeat]
    · have hcast : ((m : Int) = (n : Int)) ↔ False := by
        simpa [Nat.cast_inj] using h
      simp [stableFrom, hasAdjacentRepeat, hcast, ih, Ne.symm h]

theorem stableFrom_neg_one (l : List Nat) :
    stableFrom (-1) l = hasAdjacentRepeat l := by
  cases l with
  | nil => rfl
  | cons n rest =>
    have hne : ((n : Int) = (-1)) ↔ False := by
      constructor
      · intro h
        have := Int.natCast_nonneg n
        omega
      · exact False.elim
    simp [stableFrom, hne, stableFrom_cast]

theorem checkCandidates_allEnoent (tick : Tick) (h : tickAllEnoent tick) :
    checkCandidates tick = .ok none := by
  induction tick with
  | nil => rfl
  | cons e rest ih =>
    obtain ⟨p, o⟩ := e
    have ho : o = AccessObs.enoent := h (p, o) (List.mem_cons_self _ _)
    subst ho
    exact ih fun x hx => h x (List.mem_cons_of_mem _ hx)

theorem checkCandidates_pre (pre : Tick) (x : String × AccessObs)
    (post : Tick) (h : tickAllEnoent pre) :
    checkCandidates (pre ++ x :: post) = checkCandidates (x :: post) := by
  induction pre with
  | nil => rfl
  | cons e rest ih =>
    obtain ⟨p, o⟩ := e
    have ho : o = AccessObs.enoent := h (p, o) (List.mem_cons_self _ _)
    subst ho
    exact ih fun y hy => h y (List.mem_cons_of_mem _ hy)

theorem waitForExistingPath_allEnoent (ticks : List Tick)
    (h : ∀ tick ∈ ticks, tickAllEnoent tick) :
    waitForExistingPath ticks = .ok none := by
  induction ticks with
  | nil => rfl
  | cons tick rest ih =>
    have hc := checkCandidates_allEnoent tick
      (h tick (List.mem_cons_self _ _))
    have hr := ih fun x hx => h x (List.mem_cons_of_mem _ hx)
    simp [waitForExistingPath, hc, hr]

end Watcher

/-! ## Claim C3: stability detection of waitForStableFile -/

/--
**C3 counterexample.** On the observation trace sizes 3, 0, 3 the code
declares stability (the zero-size poll does not reset the tracked size),
yet no two consecutively observed sizes are equal, refuting the claim
that stability is declared exactly when two consecutively observed sizes
are equal and strictly positive. -/
theorem C3_stability_counterexample :
    Watcher.waitForStableFile
        [.size 3, .size 0, .size 3] (-1) = .ok true
    ∧ Watcher.consecEqualPosSpec [.size 3, .size 0, .size 3] = false :=
  ⟨rfl, rfl⟩

/--
**C3 amended.** `waitForStable` polls the file size once per tick and
declares stability exactly when an observed positive size equals the
most recently observed positive size — zero-size and absent-file polls
are skipped without resetting the comparison, so the two equal positive
sizes need not be consecutive observations; a zero-length file is never
considered stable (a trace with no positive size at all always times
out), and if no such repetition occurs within the timeout the function
fails with the stabilise-timeout error rather than returning success. -/
theorem C3_stability_amended (obs : List Watcher.StatObs)
    (h : Watcher.errFree obs = true) :
    (Watcher.waitForStableFile obs (-1) = .ok true
        ↔ Watcher.hasAdjacentRepeat (Watcher.posSizes obs) = true)
    ∧ (Watcher.hasAdjacentRepeat (Watcher.posSizes obs) = false →
        Watcher.waitForStableFile obs (-1)
          = .error .stabiliseTimeout)
    ∧ (Watcher.posSizes obs = [] →
        Watcher.waitForStableFile obs (-1)
          = .error .stabiliseTimeout) := by
  have hc := Watcher.waitForStableFile_char obs (-1) h
  rw [Watcher.stableFrom_neg_one] at hc
  by_cases hs : Watcher.hasAdjacentRepeat (Watcher.posSizes obs) = true
  · refine ⟨by simp [hc, hs], by simp [hs], fun hempty => ?_⟩
    rw [hempty] at hs
    simp [Watcher.hasAdjacentRepeat] at hs
  · have hs2 : Watcher.hasAdjacentRepeat (Watcher.posSizes obs) = false :=
      by simpa using hs
    refine ⟨by simp [hc, hs2], fun _ => by simp [hc, hs2], fun _ => ?_⟩
    simp [hc, hs2]

/-- Witness for the amended C3 at the trace sizes 2, 2. -/
theorem C3_stability_amended_witness :
    (Watcher.waitForStableFile [.size 2, .size 2] (-1) = .ok true
        ↔ Watcher.hasAdjacentRepeat
            (Watcher.posSizes [.size 2, .size 2]) = true)
    ∧ (Watcher.hasAdjacentRepeat
          (Watcher.posSizes [.size 2, .size 2]) = false →
        Watcher.waitForStableFile [.size 2, .size 2] (-1)
          = .error .stabiliseTimeout)
    ∧ (Watcher.posSizes [.size 2, .size 2] = [] →
        Watcher.waitForStableFile [.size 2, .size 2] (-1)
          = .error .stabiliseTimeout) :=
  C3_stability_amended [.size 2, .size 2] rfl

/-! ## Claim C4: candidate polling of waitForExistingPath -/

/--
**C4.** `waitForPath` checks each candidate path in the given order on
every poll tick and returns the first candidate that exists; an `ENOENT`
never throws and is treated as not yet there (a budget that expires with
only `ENOENT` observations returns `null`, not an error); any other I/O
error propagates to the caller immediately. -/
theorem C4_waitForExistingPath :
    (∀ ticks : List Watcher.Tick,
        (∀ tick ∈ ticks, Watcher.tickAllEnoent tick) →
        Watcher.waitForExistingPath ticks = .ok none)
    ∧ (∀ (pre : Watcher.Tick) (p : String) (post : Watcher.Tick)
          (ticks : List Watcher.Tick), Watcher.tickAllEnoent pre →
        Watcher.waitForExistingPath ((pre ++ (p, .found) :: post) :: ticks)
          = .ok (some p))
    ∧ (∀ (pre : Watcher.Tick) (p c : String) (post : Watcher.Tick)
          (ticks : List Watcher.Tick), Watcher.tickAllEnoent pre →
        Watcher.waitForExistingPath
            ((pre ++ (p, .ioErr c) :: post) :: ticks)
          = .error (.ioError c))
    ∧ (∀ (tick : Watcher.Tick) (ticks : List Watcher.Tick),
        Watcher.tickAllEnoent tick →
        Watcher.waitForExistingPath (tick :: ticks)
          = Watcher.waitForExistingPath ticks) := by
  refine ⟨Watcher.waitForExistingPath_allEnoent, ?_, ?_, ?_⟩
  · intro pre p post ticks hpre
    have hc := Watcher.checkCandidates_pre pre (p, .found) post hpre
    simp [Watcher.waitForExistingPath, hc, Watcher.checkCandidates]
  · intro pre p c post ticks hpre
    have hc := Watcher.checkCandidates_pre pre (p, .ioErr c) post hpre
    simp [Watcher.waitForExistingPath, hc, Watcher.checkCandidates]
  · intro tick ticks htick
    have hc := Watcher.checkCandidates_allEnoent tick htick
    simp [Watcher.waitForExistingPath, hc]

/-- Witness for C4: a first all-absent tick, then the second candidate
of the next tick is found. -/
theorem C4_waitForExistingPath_witness :
    Watcher.waitForExistingPath
        [[("a", .enoent)], [("a", .enoent), ("b", .found)]]
      = .ok (some "b") := by
  have h2 := C4_waitForExistingPath.2.1 [("a", .enoent)] "b" [] []
    (by intro e he; simp at he; simp [he])
  have h1 := C4_waitForExistingPath.2.2.2 [("a", .enoent)]
    [[("a", .enoent), ("b", .found)]]
    (by intro e he; simp at he; simp [he])
  rw [h1]
  simpa using h2

/-! ## Claims C1 and C7: the store is an upsert keyed map with
idempotent delete -/

/--
**C1.** For every key `k` and payloads `b1, b2`, performing
`save(k, b1)` then `save(k, b2)` and then `extract(k)` yields exactly
`b2`: the single `INSERT ... ON CONFLICT DO UPDATE` statement replaces
the previous blob, never merges or appends, and preserves the
primary-key invariant that at most one row is associated with any given
key. -/
theorem C1_upsert_replaces (t : SessionTable.Table) (k : String)
    (b1 b2 : Bytes) (h : (t.map Prod.fst).Nodup) :
    SessionTable.selectRow
        (SessionTable.upsertRow (SessionTable.upsertRow t k b1) k b2) k
      = some b2
    ∧ ((SessionTable.upsertRow (SessionTable.upsertRow t k b1) k b2).map
        Prod.fst).Nodup
    ∧ (SessionTable.upsertRow (SessionTable.upsertRow t k b1) k b2).countP
        (fun r => decide (r.1 = k)) ≤ 1 := by
  refine ⟨SessionTable.selectRow_upsertRow_self _ k b2, ?_, ?_⟩
  · exact SessionTable.nodup_keys_upsertRow _ k b2
      (SessionTable.nodup_keys_upsertRow t k b1 h)
  · exact SessionTable.countP_key_upsertRow _ k b2
      (SessionTable.nodup_keys_upsertRow t k b1 h)

/-- Witness for C1 at a concrete table and payloads. -/
theorem C1_upsert_replaces_witness :
    SessionTable.selectRow
        (SessionTable.upsertRow
          (SessionTable.upsertRow [("other", [7]), ("k", [1])] "k" [2])
          "k" [3]) "k"
      = some [3]
    ∧ ((SessionTable.upsertRow
          (SessionTable.upsertRow [("other", [7]), ("k", [1])] "k" [2])
          "k" [3]).map Prod.fst).Nodup
    ∧ (SessionTable.upsertRow
          (SessionTable.upsertRow [("other", [7]), ("k", [1])] "k" [2])
          "k" [3]).countP (fun r => decide (r.1 = "k")) ≤ 1 :=
  C1_upsert_replaces [("other", [7]), ("k", [1])] "k" [2] [3] (by decide)

/--
**C7.** `delete` is idempotent: deleting an absent key is a no-op
success, a second `delete(k)` leaves the same state, and `extract(k)`
after `delete(k)` returns absent (`null`), not an error. -/
theorem C7_delete_idempotent (t : SessionTable.Table) (k : String) :
    SessionTable.deleteRows (SessionTable.deleteRows t k) k
      = SessionTable.deleteRows t k
    ∧ SessionTable.selectRow (SessionTable.deleteRows t k) k = none
    ∧ (SessionTable.selectRow t k = none →
        SessionTable.deleteRows t k = t)
    ∧ SessionTable.extract (SessionTable.deleteRows t k) k
      = .ok none := by
  refine ⟨SessionTable.deleteRows_deleteRows t k,
    SessionTable.selectRow_deleteRows t k,
    SessionTable.deleteRows_of_absent t k, ?_⟩
  simp [SessionTable.extract, SessionTable.selectRow_deleteRows t k]

/-- Witness for C7 at a concrete table. -/
theorem C7_delete_idempotent_witness :
    SessionTable.deleteRows
        (SessionTable.deleteRows [("k", ([1] : Bytes))] "k") "k"
      = SessionTable.deleteRows [("k", ([1] : Bytes))] "k"
    ∧ SessionTable.selectRow
        (SessionTable.deleteRows [("k", ([1] : Bytes))] "k") "k" = none
    ∧ (SessionTable.selectRow [("k", ([1] : Bytes))] "k" = none →
        SessionTable.deleteRows [("k", ([1] : Bytes))] "k"
          = [("k", ([1] : Bytes))])
    ∧ SessionTable.extract
        (SessionTable.deleteRows [("k", ([1] : Bytes))] "k") "k"
      = .ok none :=
  C7_delete_idempotent [("k", [1])] "k"

/-! ## Helper lemmas about the retrying save -/

namespace PGStoreRetry

theorem runAttempt_fail_frame (env : AttemptEnv) (k : String)
    (t : SessionTable.Table) (e : JsError)
    (h : (runAttempt env k t).1 = .error e) :
    runAttempt env k t = (.error e, t) := by
  cases hw : Watcher.waitForExistingPath env.pathTicks with
  | error e2 =>
    simp [runAttempt, hw] at h ⊢
    simp [h]
  | ok op =>
    cases op with
    | none =>
      simp [runAttempt, hw] at h ⊢
      simp [h]
    | some p =>
      cases hs : Watcher.waitForStableFile env.statObs (-1) with
      | error e2 =>
        simp [runAttempt, hw, hs] at h ⊢
        simp [h]
      | ok b =>
        cases hr : env.readResult with
        | error e2 =>
          simp [runAttempt, hw, hs, hr] at h ⊢
          simp [h]
        | ok bytes =>
          cases hd : env.dbResult with
          | error e2 =>
            simp [runAttempt, hw, hs, hr, hd] at h ⊢
            simp [h]
          | ok u =>
            simp [runAttempt, hw, hs, hr, hd] at h

theorem save_ok1 (envs : Nat → AttemptEnv) (k : String)
    (t t1 : SessionTable.Table)
    (h : runAttempt (envs 1) k t = (.ok (), t1)) :
    save envs k t = (.ok (), t1, []) := by
  simp [save, saveGo, h]

theorem save_ok2 (envs : Nat → AttemptEnv) (k : String)
    (t t2 : SessionTable.Table) (e1 : JsError)
    (h1 : (runAttempt (envs 1) k t).1 = .error e1)
    (h2 : runAttempt (envs 2) k t = (.ok (), t2)) :
    save envs k t = (.ok (), t2, [500]) := by
  have f1 := runAttempt_fail_frame _ _ _ _ h1
  simp [save, saveGo, f1, h2, maxAttempts]

theorem save_ok3 (envs : Nat → AttemptEnv) (k : String)
    (t t3 : SessionTable.Table) (e1 e2 : JsError)
    (h1 : (runAttempt (envs 1) k t).1 = .error e1)
    (h2 : (runAttempt (envs 2) k t).1 = .error e2)
    (h3 : runAttempt (envs 3) k t = (.ok (), t3)) :
    save envs k t = (.ok (), t3, [500, 1000]) := by
  have f1 := runAttempt_fail_frame _ _ _ _ h1
  have f2 := runAttempt_fail_frame _ _ _ _ h2
  simp [save, saveGo, f1, f2, h3, maxAttempts]

theorem save_all_fail (envs : Nat → AttemptEnv) (k : String)
    (t : SessionTable.Table) (e1 e2 e3 : JsError)
    (h1 : (runAttempt (envs 1) k t).1 = .error e1)
    (h2 : (runAttempt (envs 2) k t).1 = .error e2)
    (h3 : (runAttempt (envs 3) k t).1 = .error e3) :
    save envs k t = (.error e3, t, [500, 1000]) := by
  have f1 := runAttempt_fail_frame _ _ _ _ h1
  have f2 := runAttempt_fail_frame _ _ _ _ h2
  have f3 := runAttempt_fail_frame _ _ _ _ h3
  simp [save, saveGo, f1, f2, f3, maxAttempts]

end PGStoreRetry

/-! ## Claim C2: the retry and back-off policy of save -/

/--
**C2.** The retrying save runs the whole wait-for-archive / read /
upsert sequence up to exactly 3 attempts, sleeping `500 * 2 ^ (n - 1)`
milliseconds after the n-th failed attempt (500 ms, then 1000 ms, and no
sleep after the final attempt), returns immediately on the first attempt
that succeeds, and surfaces the last error to its caller only after all
3 attempts have failed. -/
theorem C2_save_retry_policy (envs : Nat → PGStoreRetry.AttemptEnv)
    (k : String) (t : SessionTable.Table) :
    (∀ t1, PGStoreRetry.runAttempt (envs 1) k t = (.ok (), t1) →
        PGStoreRetry.save envs k t = (.ok (), t1, []))
    ∧ (∀ e1 t2, (PGStoreRetry.runAttempt (envs 1) k t).1 = .error e1 →
        PGStoreRetry.runAttempt (envs 2) k t = (.ok (), t2) →
        PGStoreRetry.save envs k t = (.ok (), t2, [500]))
    ∧ (∀ e1 e2 t3, (PGStoreRetry.runAttempt (envs 1) k t).1 = .error e1 →
        (PGStoreRetry.runAttempt (envs 2) k t).1 = .error e2 →
        PGStoreRetry.runAttempt (envs 3) k t = (.ok (), t3) →
        PGStoreRetry.save envs k t = (.ok (), t3, [500, 1000]))
    ∧ (∀ e1 e2 e3, (PGStoreRetry.runAttempt (envs 1) k t).1 = .error e1 →
        (PGStoreRetry.runAttempt (envs 2) k t).1 = .error e2 →
        (PGStoreRetry.runAttempt (envs 3) k t).1 = .error e3 →
        PGStoreRetry.save envs k t = (.error e3, t, [500, 1000])) :=
  ⟨fun t1 h => PGStoreRetry.save_ok1 envs k t t1 h,
   fun e1 t2 h1 h2 => PGStoreRetry.save_ok2 envs k t t2 e1 h1 h2,
   fun e1 e2 t3 h1 h2 h3 => PGStoreRetry.save_ok3 envs k t t3 e1 e2 h1 h2 h3,
   fun e1 e2 e3 h1 h2 h3 => PGStoreRetry.save_all_fail envs k t e1 e2 e3 h1 h2 h3⟩

/-- Witness for C2: an environment whose first two attempts fail (the
archive never appears) and whose third succeeds. -/
theorem C2_save_retry_policy_witness :
    PGStoreRetry.save
        (fun n => if n = 3 then
            ⟨[[("p", .found)]], [.size 2, .size 2], .ok [9], .ok ()⟩
          else ⟨[], [], .error .notFoundTimeout, .error .notFoundTimeout⟩)
        "k" []
      = (.ok (), [("k", [9])], [500, 1000]) :=
  (C2_save_retry_policy
      (fun n => if n = 3 then
          ⟨[[("p", .found)]], [.size 2, .size 2], .ok [9], .ok ()⟩
        else ⟨[], [], .error .notFoundTimeout, .error .notFoundTimeout⟩)
      "k" []).2.2.1 .notFoundTimeout .notFoundTimeout [("k", [9])]
    rfl rfl rfl

/-! ## Claim C5: a failed save leaves the store unchanged -/

/--
**C5.** If every one of the three save attempts fails (for instance the
session archive never appears within the retry budget), the durable
store is left exactly as it was for every key: no row is inserted or
updated, a key absent before the failed save is still absent afterwards,
and a previously stored blob is untouched. -/
theorem C5_failed_save_leaves_store (envs : Nat → PGStoreRetry.AttemptEnv)
    (k : String) (t : SessionTable.Table) (e1 e2 e3 : JsError)
    (h1 : (PGStoreRetry.runAttempt (envs 1) k t).1 = .error e1)
    (h2 : (PGStoreRetry.runAttempt (envs 2) k t).1 = .error e2)
    (h3 : (PGStoreRetry.runAttempt (envs 3) k t).1 = .error e3) :
    (PGStoreRetry.save envs k t).2.1 = t
    ∧ (PGStoreRetry.save envs k t).1 = .error e3
    ∧ ∀ k2, SessionTable.selectRow (PGStoreRetry.save envs k t).2.1 k2
        = SessionTable.selectRow t k2 := by
  have h := PGStoreRetry.save_all_fail envs k t e1 e2 e3 h1 h2 h3
  rw [h]
  exact ⟨rfl, rfl, fun _ => rfl⟩

/-- Witness for C5: an environment in which the archive never appears,
run against a store already holding another session. -/
theorem C5_failed_save_leaves_store_witness :
    (PGStoreRetry.save
        (fun _ => ⟨[], [], .error .notFoundTimeout, .error .notFoundTimeout⟩)
        "k" [("kept", [4])]).2.1 = [("kept", [4])]
    ∧ (PGStoreRetry.save
        (fun _ => ⟨[], [], .error .notFoundTimeout, .error .notFoundTimeout⟩)
        "k" [("kept", [4])]).1 = .error .notFoundTimeout
    ∧ ∀ k2, SessionTable.selectRow
        (PGStoreRetry.save
          (fun _ => ⟨[], [], .error .notFoundTimeout, .error .notFoundTimeout⟩)
          "k" [("kept", [4])]).2.1 k2
        = SessionTable.selectRow [("kept", [4])] k2 :=
  C5_failed_save_leaves_store
    (fun _ => ⟨[], [], .error .notFoundTimeout, .error .notFoundTimeout⟩)
    "k" [("kept", [4])] .notFoundTimeout .notFoundTimeout .notFoundTimeout
    rfl rfl rfl

/-! ## Claim C6: extraction of a corrupt stored payload -/

/--
**C6 counterexample.** In the prefixed-table store variant, `extract`
feeds the stored payload to `JSON.parse` with no surrounding try/catch:
on a key whose stored payload is not valid JSON (here the payload that
`jsonParseModel` rejects, standing for any string `JSON.parse` throws
on) the call raises the parse error to the caller instead of returning
absent, and the corrupt record is not deleted. -/
theorem C6_corrupt_extract_counterexample :
    PGStorePrefix.extract jsonParseModel [("k1", "corrupt")] "k1"
      = .error .parseError := rfl

/--
**C6 amended.** In the guarded JSON-text store variant, `extract` on a
key whose stored payload is unparsable does not raise: it logs, deletes
the corrupt record and returns absent (`null`), so the key subsequently
behaves as if it had never been saved; in the prefixed-table variant,
however, the same situation raises the `JSON.parse` error to the caller
and leaves the record in place. -/
theorem C6_corrupt_extract_amended {V : Type} (parse : String → Option V)
    (t : PGStoreText.TextTable) (k s : String)
    (hrow : PGStoreText.selectText t k = some s)
    (hbad : parse s = none) :
    PGStoreText.extract parse t k = (none, PGStoreText.deleteText t k)
    ∧ PGStorePrefix.extract parse t k = .error .parseError := by
  constructor
  · simp [PGStoreText.extract, hrow, hbad]
  · simp [PGStorePrefix.extract, hrow, hbad]

/-- Witness for the amended C6 at a concrete one-row corrupt table. -/
theorem C6_corrupt_extract_amended_witness :
    PGStoreText.extract jsonParseModel [("k2", "corrupt")] "k2"
      = (none, PGStoreText.deleteText [("k2", "corrupt")] "k2")
    ∧ PGStorePrefix.extract jsonParseModel [("k2", "corrupt")] "k2"
      = .error .parseError :=
  C6_corrupt_extract_amended jsonParseModel [("k2", "corrupt")] "k2"
    "corrupt" rfl rfl

/-! ## Claim C8: archive cleanup in the cleanup store variant -/

/--
**C8 counterexample.** In the cleanup variant the unlink of
`<session>.zip` sits in a `finally` block: when the upsert statement
fails, the save surfaces the error and the store is unchanged, yet the
archive file has still been deleted — so the deletion is not tied to a
successful persist. -/
theorem C8_cleanup_counterexample :
    PGStoreCleanup.save (some [1]) (.error (.dbError "down")) "s" []
      = (.error (.dbError "down"), [], none) := rfl

/--
**C8 amended.** In the cleanup variant the archive file is deleted by a
`finally` block after the persist attempt — after a successful persist,
but also after a failed one (whenever the read succeeded, the file is
gone afterwards); a missing archive makes the read itself fail and
leaves nothing to delete.  The save's correctness does not depend on the
cleanup: on success the stored bytes are exactly the file's bytes, and
on failure the error is surfaced unchanged with the store untouched. -/
theorem C8_cleanup_amended (b : Bytes) (e : JsError) (k : String)
    (t : SessionTable.Table) (db : Except JsError Unit) :
    PGStoreCleanup.save (some b) (.ok ()) k t
      = (.ok (), SessionTable.upsertRow t k b, none)
    ∧ PGStoreCleanup.save (some b) (.error e) k t = (.error e, t, none)
    ∧ PGStoreCleanup.save none db k t
      = (.error (.ioError "ENOENT"), t, none) :=
  ⟨rfl, rfl, rfl⟩

/-- Witness for the amended C8 at concrete bytes and a concrete
database failure. -/
theorem C8_cleanup_amended_witness :
    PGStoreCleanup.save (some [2]) (.ok ()) "s" []
      = (.ok (), SessionTable.upsertRow [] "s" [2], none)
    ∧ PGStoreCleanup.save (some [2]) (.error (.dbError "down")) "s" []
      = (.error (.dbError "down"), [], none)
    ∧ PGStoreCleanup.save none (.ok ()) "s" []
      = (.error (.ioError "ENOENT"), [], none) :=
  C8_cleanup_amended [2] (.dbError "down") "s" [] (.ok ())

/-! ## Claim C9: exclusive lock acquisition -/

/--
**C9.** `acquireLock` grants the lock exclusively: a lock file modified
within the last 60 seconds makes it return `false` leaving the file
unchanged; a lock file older than 60 seconds is removed and the lock
re-acquired; the lock file is created with the exclusive `wx` flag, so a
write finding the file re-created in between returns `false` on `EEXIST`
instead of overwriting, while any other write error is re-thrown. -/
theorem C9_acquireLock_exclusive (env : LockManager.LockEnv) (m : Int)
    (rm : Bool) (c : String) :
    (env.lockMtime = some m → env.now - m ≤ LockManager.staleThreshold →
        LockManager.acquireLock env = ⟨.ok false, false, false⟩)
    ∧ (env.lockMtime = some m → env.now - m > LockManager.staleThreshold →
        LockManager.acquireLock env
          = LockManager.attemptWrite env.writeRes true)
    ∧ (env.lockMtime = none →
        LockManager.acquireLock env
          = LockManager.attemptWrite env.writeRes false)
    ∧ LockManager.attemptWrite .ok rm = ⟨.ok true, rm, true⟩
    ∧ LockManager.attemptWrite .eexist rm = ⟨.ok false, rm, false⟩
    ∧ LockManager.attemptWrite (.otherErr c) rm = ⟨.error c, rm, false⟩ := by
  refine ⟨fun hm hrecent => ?_, fun hm hstale => ?_, fun hm => ?_,
    rfl, rfl, rfl⟩
  · simp [LockManager.acquireLock, hm, not_lt.mpr hrecent,
      if_neg (not_lt.mpr hrecent)]
  · simp [LockManager.acquireLock, hm, hstale]
  · simp [LockManager.acquireLock, hm]

/-- Witness for C9: a recent lock is refused; a stale lock is removed
and the exclusive write succeeds. -/
theorem C9_acquireLock_exclusive_witness :
    LockManager.acquireLock ⟨some 0, 50000, .ok⟩
      = ⟨.ok false, false, false⟩
    ∧ LockManager.acquireLock ⟨some 0, 70000, .ok⟩
      = LockManager.attemptWrite LockManager.WriteRes.ok true :=
  ⟨(C9_acquireLock_exclusive ⟨some 0, 50000, .ok⟩ 0 true "x").1 rfl
      (by norm_num [LockManager.staleThreshold]),
    (C9_acquireLock_exclusive ⟨some 0, 70000, .ok⟩ 0 true "x").2.1 rfl
      (by norm_num [LockManager.staleThreshold])⟩

/-! ## Claim C10: the send endpoint -/

/--
**C10.** For every `POST /api/send` request: when the client is not
ready the endpoint responds 400 with error `WhatsApp not ready` and
sends nothing; otherwise the `to` field is stripped of all non-digit
characters and the request is rejected with a 500 and an explanatory
error unless the remaining digit count is between 10 and 15 inclusive
(a missing or empty `to` is likewise a 500 with nothing sent); on
success the message is sent to the chat id formed by appending `@c.us`
to the digits. -/
theorem C10_apiSend (toField : Option String)
    (send : String → Except String Unit) (s : String) :
    (Server.apiSend false toField send
        = ⟨400, some "WhatsApp not ready", none⟩)
    ∧ (Server.apiSend true none send
        = ⟨500, some "Phone number to is required", none⟩)
    ∧ (Server.apiSend true (some "") send
        = ⟨500, some "Phone number to is required", none⟩)
    ∧ (s ≠ "" → (Server.digitsOnly s).length < 10
          ∨ 15 < (Server.digitsOnly s).length →
        Server.apiSend true (some s) send
          = ⟨500, some "Invalid phone number", none⟩)
    ∧ (s ≠ "" → 10 ≤ (Server.digitsOnly s).length →
        (Server.digitsOnly s).length ≤ 15 →
        send (Server.digitsOnly s ++ "@c.us") = .ok () →
        Server.apiSend true (some s) send
          = ⟨200, none, some (Server.digitsOnly s ++ "@c.us")⟩) := by
  refine ⟨rfl, rfl, rfl, fun hs hlen => ?_, fun hs hlo hhi hsend => ?_⟩
  · rcases hlen with hlen | hlen <;>
      simp [Server.apiSend, hs, hlen, Nat.lt_iff_add_one_le]
  · have hlen : ¬ ((Server.digitsOnly s).length < 10
        || (Server.digitsOnly s).length > 15) = true := by
      simp
      omega
    simp only [Server.apiSend, Bool.not_true, Bool.false_eq_true,
      if_false, hs, if_neg hs]
    simp [hlen, hsend]

/-- Witness for C10 at a concrete phone number with punctuation. -/
theorem C10_apiSend_witness :
    (Server.apiSend false (some "+60 12-345 6789")
        (fun _ : String => (Except.ok () : Except String Unit))
        = ⟨400, some "WhatsApp not ready", none⟩)
    ∧ (Server.apiSend true none
        (fun _ : String => (Except.ok () : Except String Unit))
        = ⟨500, some "Phone number to is required", none⟩)
    ∧ (Server.apiSend true (some "")
        (fun _ : String => (Except.ok () : Except String Unit))
        = ⟨500, some "Phone number to is required", none⟩)
    ∧ ("+60 12-345 6789" ≠ ""
          → (Server.digitsOnly "+60 12-345 6789").length < 10
            ∨ 15 < (Server.digitsOnly "+60 12-345 6789").length →
        Server.apiSend true (some "+60 12-345 6789")
            (fun _ : String => (Except.ok () : Except String Unit))
          = ⟨500, some "Invalid phone number", none⟩)
    ∧ ("+60 12-345 6789" ≠ ""
          → 10 ≤ (Server.digitsOnly "+60 12-345 6789").length →
        (Server.digitsOnly "+60 12-345 6789").length ≤ 15 →
        (fun _ : String => (Except.ok () : Except String Unit))
            (Server.digitsOnly "+60 12-345 6789" ++ "@c.us") = .ok () →
        Server.apiSend true (some "+60 12-345 6789")
            (fun _ : String => (Except.ok () : Except String Unit))
          = ⟨200, none,
              some (Server.digitsOnly "+60 12-345 6789" ++ "@c.us")⟩) :=
  C10_apiSend (some "+60 12-345 6789")
    (fun _ : String => (Except.ok () : Except String Unit))
    "+60 12-345 6789"
